import Mathlib

/-!
Shallow embedding of `src/ToyCompiler.py` (a small arithmetic-expression
lexer / recursive-descent parser / tree-walking interpreter) together with
proofs about it.

Modelling conventions, chosen to mirror the Python source faithfully:

* Python exceptions become the `Except PyErr` monad.  The source raises
  plain `Exception(msg)` objects (lexer: "Input character is invalid",
  parser: "Found a syntax error of input text", visitor fallback:
  "No such a method called visit_..."), and on division by zero it prints
  "The denominator should not be zero" and calls `sys.exit(1)`; the latter
  is modelled by the dedicated `PyErr.systemExit` constructor carrying the
  printed message and the exit code.
* The `Lexer` object holds the full input string and a cursor
  (`self.position`, read only through `self.curr_char` and advanced by
  `forward`).  Since the position is never reported anywhere, the pair
  (text, position) is represented by the remaining suffix
  `text[position:]` as a `List Char`; `curr_char is None` corresponds to
  the empty list.
* Python's arbitrary-precision `int` is `Int` (`Nat` for the unsigned
  literals the lexer produces); `str.isspace` / `str.isdigit` are modelled
  on the ASCII characters relevant here.
* The recursive-descent procedures `factor`/`term`/`expression` (including
  their `while` loops, written as the `_loop` helpers below) are given a
  fuel parameter to make them total Lean functions; `PyErr.outOfFuel` is an
  artifact of the embedding, never reached when enough fuel is supplied.
  `runLine`/`parseLine` supply `3 * length + 10` fuel, which dominates the
  recursion depth of the source on every input.
* The source is dynamically typed: `factor` falls off the end of its
  `if`-chain and returns Python `None` when the current token fits no
  production, so AST child slots hold either a node or `None`.  This sum is
  modelled by the extra `AST.pyNone` constructor; likewise evaluation can
  produce an `int`, a `str` (the `''` returned by `interpret` for an empty
  tree) or `None` (the implicit return of the visitor methods on an
  unexpected operator token), hence the `PyObj` type.
-/

namespace ToyCompiler

/-- Decidable equality of `Except` results, so that concrete runs of the
embedded program can be checked by `decide`. -/
instance {ε α : Type} [DecidableEq ε] [DecidableEq α] : DecidableEq (Except ε α)
  | .error e, .error f =>
    if h : e = f then .isTrue (by rw [h])
    else .isFalse (fun hh => h (Except.error.inj hh))
  | .error _, .ok _ => .isFalse (fun hh => Except.noConfusion hh)
  | .ok _, .error _ => .isFalse (fun hh => Except.noConfusion hh)
  | .ok a, .ok b =>
    if h : a = b then .isTrue (by rw [h])
    else .isFalse (fun hh => h (Except.ok.inj hh))

/-- Outcome of a raised Python exception / process exit, see the module
docstring. `outOfFuel` is the embedding's totality artifact. -/
inductive PyErr where
  | exception (msg : String)
  | systemExit (printed : String) (code : Nat)
  | outOfFuel
  deriving DecidableEq

/-- Dynamically-typed Python value produced by evaluation: an `int`, a
`str`, or `None`. -/
inductive PyObj where
  | vint (n : Int)
  | vstr (s : String)
  | vnone
  deriving DecidableEq

/-- The token-type constants `PLUS, MINUS, MUL, DIV, L_PAR, R_PAR, INTEGER,
END` of the source (lines 11-12). -/
inductive TokenType where
  | PLUS | MINUS | MUL | DIV | L_PAR | R_PAR | INTEGER | END
  deriving DecidableEq

/-- A `Token(type, content)` of the source.  Only the `INTEGER` payload is
ever read (operator tokens carry their lexeme and `END` carries `None`,
neither of which any consumer inspects), so the type/content pair is
modelled as one inductive. -/
inductive Token where
  | PLUS | MINUS | MUL | DIV | L_PAR | R_PAR
  | INTEGER (content : Nat)
  | END
  deriving DecidableEq

/-- The `type` field of a token. -/
def Token.type : Token → TokenType
  | .PLUS => .PLUS
  | .MINUS => .MINUS
  | .MUL => .MUL
  | .DIV => .DIV
  | .L_PAR => .L_PAR
  | .R_PAR => .R_PAR
  | .INTEGER _ => .INTEGER
  | .END => .END

/-- Python `str.isspace` on the ASCII whitespace characters. -/
def py_isspace (c : Char) : Bool :=
  c == ' ' || c == '\t' || c == '\n' || c == '\x0b' || c == '\x0c' || c == '\r'

/-- Python `str.isdigit` on ASCII: a decimal digit `'0'..'9'`. -/
def py_isdigit (c : Char) : Bool :=
  c.isDigit

/-- `Lexer.skip_whitespace` (lines 56-59): advance while the current
character is whitespace. -/
def skip_whitespace : List Char → List Char
  | [] => []
  | c :: cs => if py_isspace c then skip_whitespace cs else c :: cs

/-- `Lexer.get_integer` (lines 48-54): greedily consume digits, folding
them into `temp = temp * 10 + int(curr_char)` (`int(c)` is the digit value
`c.toNat - 48`); returns the value together with the rest of the input. -/
def get_integer : Nat → List Char → Nat × List Char
  | temp, [] => (temp, [])
  | temp, c :: cs =>
    if py_isdigit c then get_integer (temp * 10 + (c.toNat - 48)) cs
    else (temp, c :: cs)

/-- `Lexer.get_next_token` (lines 64-104).  The `while self.curr_char`
loop only re-enters after `skip_whitespace`, so it is equivalent to one
whitespace skip followed by a single dispatch on the current character;
the dispatch order matches the source.  An unrecognized character raises
`Exception('Input character is invalid')` (`Lexer.raise_error`, line 62). -/
def get_next_token (lx : List Char) : Except PyErr (Token × List Char) :=
  match skip_whitespace lx with
  | [] => .ok (.END, [])
  | c :: cs =>
    if c == '+' then .ok (.PLUS, cs)
    else if c == '-' then .ok (.MINUS, cs)
    else if c == '*' then .ok (.MUL, cs)
    else if c == '/' then .ok (.DIV, cs)
    else if py_isdigit c then
      match get_integer 0 (c :: cs) with
      | (n, rest) => .ok (.INTEGER n, rest)
    else if c == '(' then .ok (.L_PAR, cs)
    else if c == ')' then .ok (.R_PAR, cs)
    else .error (.exception "Input character is invalid")

/-- `Lexer.__init__` (lines 30-36): stores the text, position `0`, and
reads `self.text[self.position]`; on the empty string that indexing raises
`IndexError('string index out of range')` before any token is produced. -/
def lexerInit (text : String) : Except PyErr (List Char) :=
  if text.data = [] then .error (.exception "string index out of range")
  else .ok text.data

/-- The AST node classes (lines 116-144).  `UnaryOperator` stores the
operator token and its operand, `BinaryOperator` its two children and the
operator token, `Numbers` the integer payload of its `INTEGER` token.
`pyNone` is Python's `None`, which `Parser.factor` returns when no
production matches (see the module docstring). -/
inductive AST where
  | UnaryOperator (operator : Token) (expression : AST)
  | BinaryOperator (left : AST) (operator : Token) (right : AST)
  | Numbers (content : Nat)
  | pyNone
  deriving DecidableEq

/-- `Parser` state (lines 149-154): the wrapped lexer and the one-token
lookahead `self.curr_token`. -/
structure Parser where
  lexer : List Char
  curr_token : Token
  deriving DecidableEq

/-- `Parser.__init__` (lines 150-154): pull the first token. -/
def Parser.init (lx : List Char) : Except PyErr Parser :=
  match get_next_token lx with
  | .error e => .error e
  | .ok (t, lx') => .ok ⟨lx', t⟩

/-- `Parser.ignore` (lines 156-164): consume the current token if its type
matches, pulling the next one; otherwise `Parser.raise_error` (line 229)
raises `Exception('Found a syntax error of input text')`. -/
def ignore (p : Parser) (tt : TokenType) : Except PyErr Parser :=
  if p.curr_token.type = tt then
    match get_next_token p.lexer with
    | .error e => .error e
    | .ok (t, lx') => .ok ⟨lx', t⟩
  else .error (.exception "Found a syntax error of input text")

mutual

/-- `Parser.factor` (lines 166-189).  Note the source has no `else`
branch: on any token other than `PLUS`/`MINUS`/`INTEGER`/`L_PAR` the
method implicitly returns `None` (`pyNone` here) without consuming
anything and without raising. -/
def factor : Nat → Parser → Except PyErr (AST × Parser)
  | 0, _ => .error .outOfFuel
  | fuel + 1, p =>
    match p.curr_token with
    | .PLUS =>
      match ignore p .PLUS with
      | .error e => .error e
      | .ok p₁ =>
        match factor fuel p₁ with
        | .error e => .error e
        | .ok (node, p₂) => .ok (.UnaryOperator .PLUS node, p₂)
    | .MINUS =>
      match ignore p .MINUS with
      | .error e => .error e
      | .ok p₁ =>
        match factor fuel p₁ with
        | .error e => .error e
        | .ok (node, p₂) => .ok (.UnaryOperator .MINUS node, p₂)
    | .INTEGER n =>
      match ignore p .INTEGER with
      | .error e => .error e
      | .ok p₁ => .ok (.Numbers n, p₁)
    | .L_PAR =>
      match ignore p .L_PAR with
      | .error e => .error e
      | .ok p₁ =>
        match expression fuel p₁ with
        | .error e => .error e
        | .ok (node, p₂) =>
          match ignore p₂ .R_PAR with
          | .error e => .error e
          | .ok p₃ => .ok (node, p₃)
    | _ => .ok (.pyNone, p)

/-- `Parser.term` (lines 191-207): one `factor`, then the `while` loop
(`term_loop`). -/
def term : Nat → Parser → Except PyErr (AST × Parser)
  | 0, _ => .error .outOfFuel
  | fuel + 1, p =>
    match factor fuel p with
    | .error e => .error e
    | .ok (node, p₁) => term_loop fuel node p₁

/-- The `while self.curr_token.type == MUL or self.curr_token.type == DIV`
loop of `Parser.term`: fold each further factor into a left-nested
`BinaryOperator`. -/
def term_loop : Nat → AST → Parser → Except PyErr (AST × Parser)
  | 0, _, _ => .error .outOfFuel
  | fuel + 1, node, p =>
    match p.curr_token with
    | .MUL =>
      match ignore p .MUL with
      | .error e => .error e
      | .ok p₁ =>
        match factor fuel p₁ with
        | .error e => .error e
        | .ok (right, p₂) => term_loop fuel (.BinaryOperator node .MUL right) p₂
    | .DIV =>
      match ignore p .DIV with
      | .error e => .error e
      | .ok p₁ =>
        match factor fuel p₁ with
        | .error e => .error e
        | .ok (right, p₂) => term_loop fuel (.BinaryOperator node .DIV right) p₂
    | _ => .ok (node, p)

/-- `Parser.expression` (lines 209-226): one `term`, then the `while` loop
(`expression_loop`). -/
def expression : Nat → Parser → Except PyErr (AST × Parser)
  | 0, _ => .error .outOfFuel
  | fuel + 1, p =>
    match term fuel p with
    | .error e => .error e
    | .ok (node, p₁) => expression_loop fuel node p₁

/-- The `while self.curr_token.type == PLUS or self.curr_token.type ==
MINUS` loop of `Parser.expression`: fold each further term into a
left-nested `BinaryOperator`. -/
def expression_loop : Nat → AST → Parser → Except PyErr (AST × Parser)
  | 0, _, _ => .error .outOfFuel
  | fuel + 1, node, p =>
    match p.curr_token with
    | .PLUS =>
      match ignore p .PLUS with
      | .error e => .error e
      | .ok p₁ =>
        match term fuel p₁ with
        | .error e => .error e
        | .ok (right, p₂) => expression_loop fuel (.BinaryOperator node .PLUS right) p₂
    | .MINUS =>
      match ignore p .MINUS with
      | .error e => .error e
      | .ok p₁ =>
        match term fuel p₁ with
        | .error e => .error e
        | .ok (right, p₂) => expression_loop fuel (.BinaryOperator node .MINUS right) p₂
    | _ => .ok (node, p)

end

/-- `Parser.parse` (lines 231-239): parse one `expression`, then require
the lookahead to be `END`, else `raise_error`. -/
def parse (fuel : Nat) (p : Parser) : Except PyErr AST :=
  match expression fuel p with
  | .error e => .error e
  | .ok (root, p') =>
    if p'.curr_token.type = .END then .ok root
    else .error (.exception "Found a syntax error of input text")

/-- Python `x + y` as it occurs in `visit_BinaryOperator`: defined on two
ints; on `None`/`str` operands the interpreter would raise a `TypeError`
(message abbreviated here, no claim depends on its text). -/
def pyAdd : PyObj → PyObj → Except PyErr PyObj
  | .vint x, .vint y => .ok (.vint (x + y))
  | _, _ => .error (.exception "unsupported operand type(s)")

/-- Python `x - y` on evaluation results. -/
def pySub : PyObj → PyObj → Except PyErr PyObj
  | .vint x, .vint y => .ok (.vint (x - y))
  | _, _ => .error (.exception "unsupported operand type(s)")

/-- Python `x * y` on evaluation results. -/
def pyMul : PyObj → PyObj → Except PyErr PyObj
  | .vint x, .vint y => .ok (.vint (x * y))
  | _, _ => .error (.exception "unsupported operand type(s)")

/-- Python `x // y` wrapped in the source's `try/except ZeroDivisionError`
(lines 278-283): floor division (`Int.fdiv`); a zero denominator is caught
at this point, prints "The denominator should not be zero" and calls
`sys.exit(1)` — modelled as the `systemExit` outcome, which nothing in the
program catches. -/
def pyFloordiv : PyObj → PyObj → Except PyErr PyObj
  | .vint x, .vint y =>
    if y = 0 then .error (.systemExit "The denominator should not be zero" 1)
    else .ok (.vint (Int.fdiv x y))
  | _, _ => .error (.exception "unsupported operand type(s)")

/-- Python unary `+x` (`visit_UnaryOperator`, line 294). -/
def pyPos : PyObj → Except PyErr PyObj
  | .vint x => .ok (.vint x)
  | _ => .error (.exception "bad operand type for unary +")

/-- Python unary `-x` (`visit_UnaryOperator`, line 296). -/
def pyNeg : PyObj → Except PyErr PyObj
  | .vint x => .ok (.vint (-x))
  | _ => .error (.exception "bad operand type for unary -")

/-- `NodeVisitor.visit` dispatch together with the three
`Interpreter.visit_*` methods (lines 251-296).  Visiting Python `None`
finds no `visit_NoneType` method and hits the `visit_error` fallback
(lines 258-260).  The `visit_BinaryOperator` / `visit_UnaryOperator`
bodies are `if/elif` chains over the operator type with no `else`, so an
operator token outside the handled set falls through to an implicit
`return None` (`vnone`).  Children are evaluated left before right, and a
raised exception aborts the remaining recursion — except that a
`ZeroDivisionError` from `//` itself is converted on the spot, see
`pyFloordiv`. -/
def visit : AST → Except PyErr PyObj
  | .pyNone => .error (.exception "No such a method called visit_NoneType")
  | .Numbers n => .ok (.vint n)
  | .UnaryOperator op e =>
    match op.type with
    | .PLUS =>
      match visit e with
      | .error er => .error er
      | .ok v => pyPos v
    | .MINUS =>
      match visit e with
      | .error er => .error er
      | .ok v => pyNeg v
    | _ => .ok .vnone
  | .BinaryOperator l op r =>
    match op.type with
    | .PLUS =>
      match visit l with
      | .error er => .error er
      | .ok x =>
        match visit r with
        | .error er => .error er
        | .ok y => pyAdd x y
    | .MINUS =>
      match visit l with
      | .error er => .error er
      | .ok x =>
        match visit r with
        | .error er => .error er
        | .ok y => pySub x y
    | .MUL =>
      match visit l with
      | .error er => .error er
      | .ok x =>
        match visit r with
        | .error er => .error er
        | .ok y => pyMul x y
    | .DIV =>
      match visit l with
      | .error er => .error er
      | .ok x =>
        match visit r with
        | .error er => .error er
        | .ok y => pyFloordiv x y
    | _ => .ok .vnone

/-- `Interpreter.interpret` (lines 298-304): parse, return `''` when the
tree is `None` (`if not tree`), otherwise evaluate it. -/
def interpret (fuel : Nat) (p : Parser) : Except PyErr PyObj :=
  match parse fuel p with
  | .error e => .error e
  | .ok tree => if tree = .pyNone then .ok (.vstr "") else visit tree

/-- The per-line pipeline of `main` (lines 312-331) up to and including
`Parser.parse`: fresh lexer, fresh parser, one parse. -/
def parseLine (text : String) : Except PyErr AST :=
  match lexerInit text with
  | .error e => .error e
  | .ok lx =>
    match Parser.init lx with
    | .error e => .error e
    | .ok p => parse (3 * text.length + 10) p

/-- The per-line pipeline of `main` (lines 312-331): fresh lexer, fresh
parser, fresh interpreter, one `interpret`. -/
def runLine (text : String) : Except PyErr PyObj :=
  match lexerInit text with
  | .error e => .error e
  | .ok lx =>
    match Parser.init lx with
    | .error e => .error e
    | .ok p => interpret (3 * text.length + 10) p

/-- The driver's output line `'result is: {re}'.format(re=re)`
(line 331): an `int` prints its decimal form, the `''` result prints
nothing after the colon. -/
def formatResult (o : PyObj) : String :=
  "result is: " ++
    (match o with
     | .vint n => toString n
     | .vstr s => s
     | .vnone => "None")

/-- Decimal digit list of a natural number, used to state theorems about
arbitrary integer literals in the input text. -/
def natDigits (n : Nat) : List Char :=
  if h : n < 10 then [Char.ofNat (48 + n)]
  else natDigits (n / 10) ++ [Char.ofNat (48 + n % 10)]
  decreasing_by exact Nat.div_lt_self (by omega) (by omega)

/-- Decimal string of a natural number. -/
def numStr (n : Nat) : String :=
  ⟨natDigits n⟩

/-- Whether a character list starts with a decimal digit (used to express
that a literal's digit run is maximal). -/
def digitStart : List Char → Bool
  | [] => false
  | c :: _ => py_isdigit c

/-! ### Lemmas about the lexer on decimal literals -/

/-- Classification of the ten decimal digit characters: each is a digit,
is not whitespace, is none of the operator characters, and has the
expected code point. -/
lemma digit_char_facts (k : Nat) (h : k < 10) :
    py_isdigit (Char.ofNat (48 + k)) = true ∧
    py_isspace (Char.ofNat (48 + k)) = false ∧
    ((Char.ofNat (48 + k)) == '+') = false ∧
    ((Char.ofNat (48 + k)) == '-') = false ∧
    ((Char.ofNat (48 + k)) == '*') = false ∧
    ((Char.ofNat (48 + k)) == '/') = false ∧
    (Char.ofNat (48 + k)).toNat = 48 + k := by
  interval_cases k <;> exact (by decide)

/-- Every character of `natDigits n` is `Char.ofNat (48 + k)` for some
digit value `k < 10`. -/
lemma natDigits_shape : ∀ n : Nat, ∀ c ∈ natDigits n, ∃ k, k < 10 ∧ c = Char.ofNat (48 + k) := by
  intro n
  induction n using Nat.strong_induction_on with
  | _ n ih =>
    intro c hc
    rw [natDigits] at hc
    by_cases h : n < 10
    · rw [dif_pos h] at hc
      simp only [List.mem_singleton] at hc
      exact ⟨n, h, hc⟩
    · rw [dif_neg h] at hc
      rcases List.mem_append.mp hc with h1 | h2
      · exact ih (n / 10) (Nat.div_lt_self (by omega) (by omega)) c h1
      · simp only [List.mem_singleton] at h2
        exact ⟨n % 10, Nat.mod_lt _ (by omega), h2⟩

/-- Every character of `natDigits n` is a decimal digit. -/
lemma natDigits_digit (n : Nat) : ∀ c ∈ natDigits n, py_isdigit c = true := by
  intro c hc
  obtain ⟨k, hk, rfl⟩ := natDigits_shape n c hc
  exact (digit_char_facts k hk).1

/-- `natDigits` never produces the empty list. -/
lemma natDigits_ne_nil (n : Nat) : natDigits n ≠ [] := by
  rw [natDigits]
  split <;> simp

/-- `get_integer` consumes a leading all-digit block in one pass, folding
it into the accumulator. -/
lemma get_integer_digits_run :
    ∀ ds : List Char, (∀ c ∈ ds, py_isdigit c = true) →
    ∀ (acc : Nat) (rest : List Char),
      get_integer acc (ds ++ rest) =
        get_integer (ds.foldl (fun a c => a * 10 + (c.toNat - 48)) acc) rest := by
  intro ds
  induction ds with
  | nil => intro _ acc rest; simp
  | cons d ds ih =>
    intro hall acc rest
    have hd : py_isdigit d = true := hall d (by simp)
    simp only [List.cons_append, get_integer, hd, if_true, List.foldl_cons]
    exact ih (fun c hc => hall c (by simp [hc])) _ rest

/-- `get_integer` stops immediately when the input does not start with a
digit. -/
lemma get_integer_no_digit (rest : List Char) (h : digitStart rest = false) (acc : Nat) :
    get_integer acc rest = (acc, rest) := by
  cases rest with
  | nil => simp [get_integer]
  | cons c cs =>
    simp only [digitStart] at h
    simp [get_integer, h]

/-- Folding the digits of `n` onto an accumulator yields
`acc * 10 ^ (number of digits) + n`. -/
lemma natDigits_foldl (n : Nat) :
    ∀ acc : Nat,
      (natDigits n).foldl (fun a c => a * 10 + (c.toNat - 48)) acc =
        acc * 10 ^ (natDigits n).length + n := by
  induction n using Nat.strong_induction_on with
  | _ n ih =>
    intro acc
    rw [natDigits]
    by_cases h : n < 10
    · rw [dif_pos h]
      simp only [List.foldl_cons, List.foldl_nil, List.length_singleton, pow_one]
      rw [(digit_char_facts n h).2.2.2.2.2.2]
      omega
    · rw [dif_neg h]
      rw [List.foldl_append, List.length_append]
      rw [ih (n / 10) (Nat.div_lt_self (by omega) (by omega)) acc]
      simp only [List.foldl_cons, List.foldl_nil, List.length_singleton]
      rw [(digit_char_facts (n % 10) (Nat.mod_lt _ (by omega))).2.2.2.2.2.2]
      rw [pow_succ]
      have hassoc : acc * (10 ^ (natDigits (n / 10)).length * 10) =
          acc * 10 ^ (natDigits (n / 10)).length * 10 := by ring
      rw [hassoc]
      set C := acc * 10 ^ (natDigits (n / 10)).length with hC
      omega

/-- The lexer turns a leading decimal literal into a single `INTEGER`
token with its value, consuming exactly the (maximal) digit run. -/
lemma get_next_token_natDigits (n : Nat) (rest : List Char) (hr : digitStart rest = false) :
    get_next_token (natDigits n ++ rest) = .ok (.INTEGER n, rest) := by
  obtain ⟨c, ds, hds⟩ : ∃ c ds, natDigits n = c :: ds := by
    cases h : natDigits n with
    | nil => exact absurd h (natDigits_ne_nil n)
    | cons c ds => exact ⟨c, ds, rfl⟩
  obtain ⟨k, hk, hck⟩ := natDigits_shape n c (by rw [hds]; simp)
  obtain ⟨hdig, hsp, hp, hm, hs, hd, -⟩ := digit_char_facts k hk
  rw [← hck] at hdig hsp hp hm hs hd
  rw [hds, List.cons_append, get_next_token]
  rw [skip_whitespace, if_neg (by simp [hsp])]
  simp only [hp, hm, hs, hd, hdig, if_true, if_false, Bool.false_eq_true]
  rw [← List.cons_append, ← hds]
  rw [get_integer_digits_run (natDigits n) (natDigits_digit n) 0 rest]
  rw [get_integer_no_digit rest hr]
  rw [natDigits_foldl n 0]
  simp

/-- Leading whitespace does not affect the next token. -/
lemma get_next_token_cons_space (c : Char) (l : List Char) (h : py_isspace c = true) :
    get_next_token (c :: l) = get_next_token l := by
  rw [get_next_token, get_next_token, skip_whitespace, if_pos (by simp [h])]

/-! ### Fuel monotonicity

The fuel parameter is an artifact of the embedding; these lemmas show
that any result other than `outOfFuel` is preserved when more fuel is
supplied, so a run that completes at some fuel is the run of the source
program. -/

lemma parser_fuel_mono : ∀ f : Nat,
    (∀ p g, f ≤ g → factor f p ≠ .error .outOfFuel → factor g p = factor f p) ∧
    (∀ p g, f ≤ g → term f p ≠ .error .outOfFuel → term g p = term f p) ∧
    (∀ node p g, f ≤ g → term_loop f node p ≠ .error .outOfFuel →
      term_loop g node p = term_loop f node p) ∧
    (∀ p g, f ≤ g → expression f p ≠ .error .outOfFuel → expression g p = expression f p) ∧
    (∀ node p g, f ≤ g → expression_loop f node p ≠ .error .outOfFuel →
      expression_loop g node p = expression_loop f node p) := by
  intro f
  induction f with
  | zero =>
    exact ⟨fun p g _ hne => absurd rfl hne, fun p g _ hne => absurd rfl hne,
      fun node p g _ hne => absurd rfl hne, fun p g _ hne => absurd rfl hne,
      fun node p g _ hne => absurd rfl hne⟩
  | succ f ih =>
    obtain ⟨ihf, iht, ihtl, ihe, ihel⟩ := ih
    refine ⟨?_, ?_, ?_, ?_, ?_⟩
    · -- factor
      intro p g hg hne
      obtain ⟨g', rfl⟩ : ∃ g', g = g' + 1 := ⟨g - 1, by omega⟩
      have hg' : f ≤ g' := by omega
      rw [factor, factor]
      cases htok : p.curr_token with
      | PLUS =>
        cases hig : ignore p .PLUS with
        | error e => rfl
        | ok p₁ =>
          have hne' : factor f p₁ ≠ .error .outOfFuel := fun hgas => hne (by
            simp only [factor, htok, hig, hgas])
          simp only [ihf p₁ g' hg' hne']
      | MINUS =>
        cases hig : ignore p .MINUS with
        | error e => rfl
        | ok p₁ =>
          have hne' : factor f p₁ ≠ .error .outOfFuel := fun hgas => hne (by
            simp only [factor, htok, hig, hgas])
          simp only [ihf p₁ g' hg' hne']
      | INTEGER n => rfl
      | L_PAR =>
        cases hig : ignore p .L_PAR with
        | error e => rfl
        | ok p₁ =>
          have hne' : expression f p₁ ≠ .error .outOfFuel := fun hgas => hne (by
            simp only [factor, htok, hig, hgas])
          simp only [ihe p₁ g' hg' hne']
      | MUL => rfl
      | DIV => rfl
      | R_PAR => rfl
      | END => rfl
    · -- term
      intro p g hg hne
      obtain ⟨g', rfl⟩ : ∃ g', g = g' + 1 := ⟨g - 1, by omega⟩
      have hg' : f ≤ g' := by omega
      rw [term, term]
      cases hfa : factor f p with
      | error e =>
        have hee : e ≠ .outOfFuel := fun hgas => hne (by simp only [term, hfa, hgas])
        have h2 : factor g' p = factor f p :=
          ihf p g' hg' (by rw [hfa]; exact fun hc => hee (Except.error.inj hc))
        simp only [h2, hfa]
      | ok np =>
        obtain ⟨node, p₁⟩ := np
        have hne' : term_loop f node p₁ ≠ .error .outOfFuel := fun hgas => hne (by
          simp only [term, hfa, hgas])
        have h2 : factor g' p = factor f p := ihf p g' hg' (by simp [hfa])
        simp only [h2, hfa]
        exact ihtl node p₁ g' hg' hne'
    · -- term_loop
      intro node p g hg hne
      obtain ⟨g', rfl⟩ : ∃ g', g = g' + 1 := ⟨g - 1, by omega⟩
      have hg' : f ≤ g' := by omega
      rw [term_loop, term_loop]
      cases htok : p.curr_token with
      | MUL =>
        cases hig : ignore p .MUL with
        | error e => rfl
        | ok p₁ =>
          cases hfa : factor f p₁ with
          | error e =>
            have hee : e ≠ .outOfFuel := fun hgas => hne (by
              simp only [term_loop, htok, hig, hfa, hgas])
            have h2 : factor g' p₁ = factor f p₁ :=
              ihf p₁ g' hg' (by rw [hfa]; exact fun hc => hee (Except.error.inj hc))
            simp only [h2, hfa]
          | ok np =>
            obtain ⟨right, p₂⟩ := np
            have hne' : term_loop f (.BinaryOperator node .MUL right) p₂ ≠
                .error .outOfFuel := fun hgas => hne (by
              simp only [term_loop, htok, hig, hfa, hgas])
            have h2 : factor g' p₁ = factor f p₁ := ihf p₁ g' hg' (by simp [hfa])
            simp only [h2, hfa]
            exact ihtl _ p₂ g' hg' hne'
      | DIV =>
        cases hig : ignore p .DIV with
        | error e => rfl
        | ok p₁ =>
          cases hfa : factor f p₁ with
          | error e =>
            have hee : e ≠ .outOfFuel := fun hgas => hne (by
              simp only [term_loop, htok, hig, hfa, hgas])
            have h2 : factor g' p₁ = factor f p₁ :=
              ihf p₁ g' hg' (by rw [hfa]; exact fun hc => hee (Except.error.inj hc))
            simp only [h2, hfa]
          | ok np =>
            obtain ⟨right, p₂⟩ := np
            have hne' : term_loop f (.BinaryOperator node .DIV right) p₂ ≠
                .error .outOfFuel := fun hgas => hne (by
              simp only [term_loop, htok, hig, hfa, hgas])
            have h2 : factor g' p₁ = factor f p₁ := ihf p₁ g' hg' (by simp [hfa])
            simp only [h2, hfa]
            exact ihtl _ p₂ g' hg' hne'
      | PLUS => rfl
      | MINUS => rfl
      | INTEGER n => rfl
      | L_PAR => rfl
      | R_PAR => rfl
      | END => rfl
    · -- expression
      intro p g hg hne
      obtain ⟨g', rfl⟩ : ∃ g', g = g' + 1 := ⟨g - 1, by omega⟩
      have hg' : f ≤ g' := by omega
      rw [expression, expression]
      cases hte : term f p with
      | error e =>
        have hee : e ≠ .outOfFuel := fun hgas => hne (by simp only [expression, hte, hgas])
        have h2 : term g' p = term f p :=
          iht p g' hg' (by rw [hte]; exact fun hc => hee (Except.error.inj hc))
        simp only [h2, hte]
      | ok np =>
        obtain ⟨node, p₁⟩ := np
        have hne' : expression_loop f node p₁ ≠ .error .outOfFuel := fun hgas => hne (by
          simp only [expression, hte, hgas])
        have h2 : term g' p = term f p := iht p g' hg' (by simp [hte])
        simp only [h2, hte]
        exact ihel node p₁ g' hg' hne'
    · -- expression_loop
      intro node p g hg hne
      obtain ⟨g', rfl⟩ : ∃ g', g = g' + 1 := ⟨g - 1, by omega⟩
      have hg' : f ≤ g' := by omega
      rw [expression_loop, expression_loop]
      cases htok : p.curr_token with
      | PLUS =>
        cases hig : ignore p .PLUS with
        | error e => rfl
        | ok p₁ =>
          cases hte : term f p₁ with
          | error e =>
            have hee : e ≠ .outOfFuel := fun hgas => hne (by
              simp only [expression_loop, htok, hig, hte, hgas])
            have h2 : term g' p₁ = term f p₁ :=
              iht p₁ g' hg' (by rw [hte]; exact fun hc => hee (Except.error.inj hc))
            simp only [h2, hte]
          | ok np =>
            obtain ⟨right, p₂⟩ := np
            have hne' : expression_loop f (.BinaryOperator node .PLUS right) p₂ ≠
                .error .outOfFuel := fun hgas => hne (by
              simp only [expression_loop, htok, hig, hte, hgas])
            have h2 : term g' p₁ = term f p₁ := iht p₁ g' hg' (by simp [hte])
            simp only [h2, hte]
            exact ihel _ p₂ g' hg' hne'
      | MINUS =>
        cases hig : ignore p .MINUS with
        | error e => rfl
        | ok p₁ =>
          cases hte : term f p₁ with
          | error e =>
            have hee : e ≠ .outOfFuel := fun hgas => hne (by
              simp only [expression_loop, htok, hig, hte, hgas])
            have h2 : term g' p₁ = term f p₁ :=
              iht p₁ g' hg' (by rw [hte]; exact fun hc => hee (Except.error.inj hc))
            simp only [h2, hte]
          | ok np =>
            obtain ⟨right, p₂⟩ := np
            have hne' : expression_loop f (.BinaryOperator node .MINUS right) p₂ ≠
                .error .outOfFuel := fun hgas => hne (by
              simp only [expression_loop, htok, hig, hte, hgas])
            have h2 : term g' p₁ = term f p₁ := iht p₁ g' hg' (by simp [hte])
            simp only [h2, hte]
            exact ihel _ p₂ g' hg' hne'
      | MUL => rfl
      | DIV => rfl
      | INTEGER n => rfl
      | L_PAR => rfl
      | R_PAR => rfl
      | END => rfl

/-- Monotonicity of `expression` in the fuel. -/
lemma expression_mono (f : Nat) (p : Parser) (g : Nat) (hg : f ≤ g)
    (hne : expression f p ≠ .error .outOfFuel) : expression g p = expression f p :=
  (parser_fuel_mono f).2.2.2.1 p g hg hne

/-- Monotonicity of `parse` in the fuel. -/
lemma parse_mono (f g : Nat) (hg : f ≤ g) (p : Parser)
    (hne : parse f p ≠ .error .outOfFuel) : parse g p = parse f p := by
  rw [parse, parse]
  cases he : expression f p with
  | error e =>
    have hee : e ≠ .outOfFuel := fun hgas => hne (by rw [parse, he, hgas])
    rw [expression_mono f p g hg (by rw [he]; exact fun hc => hee (Except.error.inj hc)), he]
  | ok rp =>
    rw [expression_mono f p g hg (by simp [he]), he]

/-- Monotonicity of `interpret` in the fuel. -/
lemma interpret_mono (f g : Nat) (hg : f ≤ g) (p : Parser)
    (hne : interpret f p ≠ .error .outOfFuel) : interpret g p = interpret f p := by
  rw [interpret, interpret]
  cases hp : parse f p with
  | error e =>
    have hee : e ≠ .outOfFuel := fun hgas => hne (by rw [interpret, hp, hgas])
    rw [parse_mono f g hg p (by rw [hp]; exact fun hc => hee (Except.error.inj hc)), hp]
  | ok tree =>
    rw [parse_mono f g hg p (by simp [hp]), hp]

/-- A run of the whole pipeline can be established from the first token of
the line and a `parse` run at any sufficient concrete fuel (here 8). -/
lemma parseLine_eval (s : String) (t₀ : Token) (lx₀ : List Char) (r : Except PyErr AST)
    (hne : s.data ≠ [])
    (h₀ : get_next_token s.data = .ok (t₀, lx₀))
    (hp : parse 8 ⟨lx₀, t₀⟩ = r)
    (hr : r ≠ .error .outOfFuel) :
    parseLine s = r := by
  have hmono := parse_mono 8 (3 * s.length + 10) (by omega) ⟨lx₀, t₀⟩ (by rw [hp]; exact hr)
  rw [parseLine]
  rw [lexerInit, if_neg hne]
  show (match Parser.init s.data with
    | .error e => .error e
    | .ok p => parse (3 * s.length + 10) p) = r
  rw [Parser.init, h₀]
  show parse (3 * s.length + 10) ⟨lx₀, t₀⟩ = r
  rw [hmono, hp]

/-- Like `parseLine_eval`, for the full evaluation pipeline. -/
lemma runLine_eval (s : String) (t₀ : Token) (lx₀ : List Char) (r : Except PyErr PyObj)
    (hne : s.data ≠ [])
    (h₀ : get_next_token s.data = .ok (t₀, lx₀))
    (hp : interpret 8 ⟨lx₀, t₀⟩ = r)
    (hr : r ≠ .error .outOfFuel) :
    runLine s = r := by
  have hmono := interpret_mono 8 (3 * s.length + 10) (by omega) ⟨lx₀, t₀⟩ (by rw [hp]; exact hr)
  rw [runLine]
  rw [lexerInit, if_neg hne]
  show (match Parser.init s.data with
    | .error e => .error e
    | .ok p => interpret (3 * s.length + 10) p) = r
  rw [Parser.init, h₀]
  show interpret (3 * s.length + 10) ⟨lx₀, t₀⟩ = r
  rw [hmono, hp]

/-! ### Symbolic runs of the pipeline on input shapes with arbitrary
literals -/

lemma get_next_token_nil : get_next_token [] = .ok (.END, []) := rfl

lemma get_next_token_plus (l : List Char) : get_next_token ('+' :: l) = .ok (.PLUS, l) := by
  simp [get_next_token, skip_whitespace, py_isspace]

lemma get_next_token_minus (l : List Char) : get_next_token ('-' :: l) = .ok (.MINUS, l) := by
  simp [get_next_token, skip_whitespace, py_isspace]

lemma get_next_token_mul (l : List Char) : get_next_token ('*' :: l) = .ok (.MUL, l) := by
  simp [get_next_token, skip_whitespace, py_isspace]

lemma get_next_token_slash (l : List Char) : get_next_token ('/' :: l) = .ok (.DIV, l) := by
  simp [get_next_token, skip_whitespace, py_isspace]

lemma get_next_token_sp_int (b : Nat) (rest : List Char) (hr : digitStart rest = false) :
    get_next_token (' ' :: (natDigits b ++ rest)) = .ok (.INTEGER b, rest) := by
  rw [get_next_token_cons_space _ _ (by decide)]
  exact get_next_token_natDigits b rest hr

lemma get_next_token_sp_int_nil (b : Nat) :
    get_next_token (' ' :: natDigits b) = .ok (.INTEGER b, []) := by
  have h := get_next_token_sp_int b [] rfl
  simpa using h

/-- Parsing the token stream of `a / b` at fuel 8. -/
lemma parse8_div (a b : Nat) :
    parse 8 ⟨' ' :: '/' :: ' ' :: natDigits b, .INTEGER a⟩ =
      .ok (.BinaryOperator (.Numbers a) .DIV (.Numbers b)) := by
  have h1 : get_next_token (' ' :: '/' :: ' ' :: natDigits b) =
      .ok (.DIV, ' ' :: natDigits b) := by
    rw [get_next_token_cons_space _ _ (by decide)]
    exact get_next_token_slash _
  simp [parse, expression, term, factor, term_loop, expression_loop, ignore, Token.type,
    h1, get_next_token_sp_int_nil, get_next_token_nil]

/-- Parsing the token stream of `a + b * c` at fuel 8: the `*` binds
tighter, the `+` node is on top. -/
lemma parse8_addmul (a b c : Nat) :
    parse 8 ⟨' ' :: '+' :: ' ' :: (natDigits b ++ (' ' :: '*' :: ' ' :: natDigits c)),
        .INTEGER a⟩ =
      .ok (.BinaryOperator (.Numbers a) .PLUS
        (.BinaryOperator (.Numbers b) .MUL (.Numbers c))) := by
  have h1 : get_next_token
      (' ' :: '+' :: ' ' :: (natDigits b ++ (' ' :: '*' :: ' ' :: natDigits c))) =
      .ok (.PLUS, ' ' :: (natDigits b ++ (' ' :: '*' :: ' ' :: natDigits c))) := by
    rw [get_next_token_cons_space _ _ (by decide)]
    exact get_next_token_plus _
  have h2 : get_next_token (' ' :: (natDigits b ++ (' ' :: '*' :: ' ' :: natDigits c))) =
      .ok (.INTEGER b, ' ' :: '*' :: ' ' :: natDigits c) :=
    get_next_token_sp_int b _ rfl
  have h3 : get_next_token (' ' :: '*' :: ' ' :: natDigits c) =
      .ok (.MUL, ' ' :: natDigits c) := by
    rw [get_next_token_cons_space _ _ (by decide)]
    exact get_next_token_mul _
  simp [parse, expression, term, factor, term_loop, expression_loop, ignore, Token.type,
    h1, h2, h3, get_next_token_sp_int_nil, get_next_token_nil]

/-- Parsing the token stream of `a - b - c` at fuel 8: the chain folds
left, the second `-` node is on top. -/
lemma parse8_subsub (a b c : Nat) :
    parse 8 ⟨' ' :: '-' :: ' ' :: (natDigits b ++ (' ' :: '-' :: ' ' :: natDigits c)),
        .INTEGER a⟩ =
      .ok (.BinaryOperator (.BinaryOperator (.Numbers a) .MINUS (.Numbers b))
        .MINUS (.Numbers c)) := by
  have h1 : get_next_token
      (' ' :: '-' :: ' ' :: (natDigits b ++ (' ' :: '-' :: ' ' :: natDigits c))) =
      .ok (.MINUS, ' ' :: (natDigits b ++ (' ' :: '-' :: ' ' :: natDigits c))) := by
    rw [get_next_token_cons_space _ _ (by decide)]
    exact get_next_token_minus _
  have h2 : get_next_token (' ' :: (natDigits b ++ (' ' :: '-' :: ' ' :: natDigits c))) =
      .ok (.INTEGER b, ' ' :: '-' :: ' ' :: natDigits c) :=
    get_next_token_sp_int b _ rfl
  have h3 : get_next_token (' ' :: '-' :: ' ' :: natDigits c) =
      .ok (.MINUS, ' ' :: natDigits c) := by
    rw [get_next_token_cons_space _ _ (by decide)]
    exact get_next_token_minus _
  simp [parse, expression, term, factor, term_loop, expression_loop, ignore, Token.type,
    h1, h2, h3, get_next_token_sp_int_nil, get_next_token_nil]

/-! ### Evaluation of the parsed shapes and end-to-end runs -/

lemma string_div_data (a b : Nat) :
    (numStr a ++ " / " ++ numStr b).data =
      natDigits a ++ (' ' :: '/' :: ' ' :: natDigits b) := by
  simp [numStr, List.append_assoc]

lemma string_addmul_data (a b c : Nat) :
    (numStr a ++ " + " ++ numStr b ++ " * " ++ numStr c).data =
      natDigits a ++ (' ' :: '+' :: ' ' ::
        (natDigits b ++ (' ' :: '*' :: ' ' :: natDigits c))) := by
  simp [numStr, List.append_assoc]

lemma string_subsub_data (a b c : Nat) :
    (numStr a ++ " - " ++ numStr b ++ " - " ++ numStr c).data =
      natDigits a ++ (' ' :: '-' :: ' ' ::
        (natDigits b ++ (' ' :: '-' :: ' ' :: natDigits c))) := by
  simp [numStr, List.append_assoc]

lemma natDigits_append_ne_nil (a : Nat) (l : List Char) :
    natDigits a ++ l ≠ [] := by
  intro h
  exact natDigits_ne_nil a (List.append_eq_nil.mp h).1

/-- Evaluating the AST of `a / b` for `b ≠ 0`: floor division, which on
two naturals is natural division. -/
lemma visit_div (a b : Nat) (hb : b ≠ 0) :
    visit (.BinaryOperator (.Numbers a) .DIV (.Numbers b)) = .ok (.vint (a / b : Nat)) := by
  simp only [visit, Token.type, pyFloordiv]
  rw [if_neg (by exact_mod_cast hb), ← Int.ofNat_fdiv]

/-- Evaluating the AST of `a / 0`: the `ZeroDivisionError` handler prints
its message and exits with status 1. -/
lemma visit_div_zero (a : Nat) :
    visit (.BinaryOperator (.Numbers a) .DIV (.Numbers 0)) =
      .error (.systemExit "The denominator should not be zero" 1) := by
  simp [visit, Token.type, pyFloordiv]

lemma interpret8_div (a b : Nat) (hb : b ≠ 0) :
    interpret 8 ⟨' ' :: '/' :: ' ' :: natDigits b, .INTEGER a⟩ =
      .ok (.vint (a / b : Nat)) := by
  simp only [interpret, parse8_div a b]
  rw [if_neg (by simp)]
  exact visit_div a b hb

lemma interpret8_div_zero (a : Nat) :
    interpret 8 ⟨' ' :: '/' :: ' ' :: natDigits 0, .INTEGER a⟩ =
      .error (.systemExit "The denominator should not be zero" 1) := by
  simp only [interpret, parse8_div a 0]
  rw [if_neg (by simp)]
  exact visit_div_zero a

/-- End-to-end: `a / b` with `b ≠ 0` evaluates to `a / b` (floor). -/
lemma runLine_div (a b : Nat) (hb : b ≠ 0) :
    runLine (numStr a ++ " / " ++ numStr b) = .ok (.vint (a / b : Nat)) := by
  apply runLine_eval _ (.INTEGER a) (' ' :: '/' :: ' ' :: natDigits b)
  · rw [string_div_data]; exact natDigits_append_ne_nil a _
  · rw [string_div_data]; exact get_next_token_natDigits a _ rfl
  · exact interpret8_div a b hb
  · simp

/-- End-to-end: `a / 0` aborts the process via the division-by-zero
handler. -/
lemma runLine_div_zero (a : Nat) :
    runLine (numStr a ++ " / " ++ numStr 0) =
      .error (.systemExit "The denominator should not be zero" 1) := by
  apply runLine_eval _ (.INTEGER a) (' ' :: '/' :: ' ' :: natDigits 0)
  · rw [string_div_data]; exact natDigits_append_ne_nil a _
  · rw [string_div_data]; exact get_next_token_natDigits a _ rfl
  · exact interpret8_div_zero a
  · simp

/-- Evaluating the AST of `a + b * c`. -/
lemma visit_addmul (a b c : Nat) :
    visit (.BinaryOperator (.Numbers a) .PLUS
        (.BinaryOperator (.Numbers b) .MUL (.Numbers c))) =
      .ok (.vint (a + b * c : Nat)) := by
  simp [visit, Token.type, pyAdd, pyMul]

lemma interpret8_addmul (a b c : Nat) :
    interpret 8 ⟨' ' :: '+' :: ' ' :: (natDigits b ++ (' ' :: '*' :: ' ' :: natDigits c)),
        .INTEGER a⟩ =
      .ok (.vint (a + b * c : Nat)) := by
  simp only [interpret, parse8_addmul a b c]
  rw [if_neg (by simp)]
  exact visit_addmul a b c

/-- End-to-end: `a + b * c` evaluates with the multiplication bound
tighter. -/
lemma runLine_addmul (a b c : Nat) :
    runLine (numStr a ++ " + " ++ numStr b ++ " * " ++ numStr c) =
      .ok (.vint (a + b * c : Nat)) := by
  apply runLine_eval _ (.INTEGER a)
    (' ' :: '+' :: ' ' :: (natDigits b ++ (' ' :: '*' :: ' ' :: natDigits c)))
  · rw [string_addmul_data]; exact natDigits_append_ne_nil a _
  · rw [string_addmul_data]; exact get_next_token_natDigits a _ rfl
  · exact interpret8_addmul a b c
  · simp

/-- The parse tree of `a + b * c`, end to end. -/
lemma parseLine_addmul (a b c : Nat) :
    parseLine (numStr a ++ " + " ++ numStr b ++ " * " ++ numStr c) =
      .ok (.BinaryOperator (.Numbers a) .PLUS
        (.BinaryOperator (.Numbers b) .MUL (.Numbers c))) := by
  apply parseLine_eval _ (.INTEGER a)
    (' ' :: '+' :: ' ' :: (natDigits b ++ (' ' :: '*' :: ' ' :: natDigits c)))
  · rw [string_addmul_data]; exact natDigits_append_ne_nil a _
  · rw [string_addmul_data]; exact get_next_token_natDigits a _ rfl
  · exact parse8_addmul a b c
  · simp

/-- Evaluating the AST of `a - b - c` (left-nested). -/
lemma visit_subsub (a b c : Nat) :
    visit (.BinaryOperator (.BinaryOperator (.Numbers a) .MINUS (.Numbers b))
        .MINUS (.Numbers c)) =
      .ok (.vint ((a : Int) - b - c)) := by
  simp [visit, Token.type, pySub]

lemma interpret8_subsub (a b c : Nat) :
    interpret 8 ⟨' ' :: '-' :: ' ' :: (natDigits b ++ (' ' :: '-' :: ' ' :: natDigits c)),
        .INTEGER a⟩ =
      .ok (.vint ((a : Int) - b - c)) := by
  simp only [interpret, parse8_subsub a b c]
  rw [if_neg (by simp)]
  exact visit_subsub a b c

/-- End-to-end: `a - b - c` evaluates left-associatively. -/
lemma runLine_subsub (a b c : Nat) :
    runLine (numStr a ++ " - " ++ numStr b ++ " - " ++ numStr c) =
      .ok (.vint ((a : Int) - b - c)) := by
  apply runLine_eval _ (.INTEGER a)
    (' ' :: '-' :: ' ' :: (natDigits b ++ (' ' :: '-' :: ' ' :: natDigits c)))
  · rw [string_subsub_data]; exact natDigits_append_ne_nil a _
  · rw [string_subsub_data]; exact get_next_token_natDigits a _ rfl
  · exact interpret8_subsub a b c
  · simp

/-- The parse tree of `a - b - c`, end to end. -/
lemma parseLine_subsub (a b c : Nat) :
    parseLine (numStr a ++ " - " ++ numStr b ++ " - " ++ numStr c) =
      .ok (.BinaryOperator (.BinaryOperator (.Numbers a) .MINUS (.Numbers b))
        .MINUS (.Numbers c)) := by
  apply parseLine_eval _ (.INTEGER a)
    (' ' :: '-' :: ' ' :: (natDigits b ++ (' ' :: '-' :: ' ' :: natDigits c)))
  · rw [string_subsub_data]; exact natDigits_append_ne_nil a _
  · rw [string_subsub_data]; exact get_next_token_natDigits a _ rfl
  · exact parse8_subsub a b c
  · simp

/-! ### Whitespace-only lines -/

lemma skip_whitespace_all (l : List Char) (h : ∀ c ∈ l, py_isspace c = true) :
    skip_whitespace l = [] := by
  induction l with
  | nil => rfl
  | cons c cs ih =>
    rw [skip_whitespace, if_pos (by simp [h c (by simp)])]
    exact ih (fun d hd => h d (by simp [hd]))

lemma runLine_whitespace (s : String) (h1 : s.data ≠ [])
    (h2 : ∀ c ∈ s.data, py_isspace c = true) :
    runLine s = .ok (.vstr "") := by
  apply runLine_eval s .END []
  · exact h1
  · rw [get_next_token, skip_whitespace_all s.data h2]
  · decide
  · simp

lemma parseLine_whitespace (s : String) (h1 : s.data ≠ [])
    (h2 : ∀ c ∈ s.data, py_isspace c = true) :
    parseLine s = .ok .pyNone := by
  apply parseLine_eval s .END []
  · exact h1
  · rw [get_next_token, skip_whitespace_all s.data h2]
  · decide
  · simp

/-! ### Floor division is rational floor -/

/-- For a positive divisor, `Int.fdiv` is the floor of the rational
quotient (in particular rounding toward negative infinity, not toward
zero). -/
lemma fdiv_eq_floor (x y : Int) (hy : 0 < y) :
    Int.fdiv x y = ⌊(x : ℚ) / (y : ℚ)⌋ := by
  obtain ⟨d, rfl⟩ : ∃ d : Nat, y = (d : Int) := ⟨y.toNat, (Int.toNat_of_nonneg hy.le).symm⟩
  rw [Int.fdiv_eq_ediv x hy.le]
  rw [show (((d : Int) : ℚ)) = (d : ℚ) from by push_cast; rfl]
  exact (Rat.floor_intCast_div_natCast x d).symm

/-- The decimal string of 0 is "0". -/
lemma numStr_zero : numStr 0 = "0" := by
  rw [numStr, natDigits, dif_pos (by norm_num)]

/-- Appending " / " and the literal 0 is the string " / 0". -/
lemma string_append_div_zero (a : Nat) :
    numStr a ++ " / " ++ numStr 0 = numStr a ++ " / 0" := by
  rw [numStr_zero, String.append_assoc,
    show (" / " ++ "0" : String) = " / 0" from by decide]

/-! ## The claims -/

/-- C1: for expressions built from `+ - * ( )` and integer literals,
evaluation respects operator precedence: multiplication binds tighter than
addition (shown structurally and by value for every literal triple
`a + b * c`), and parentheses override this; in particular `"2 + 3 * 4"`
evaluates to 14 and `"(2 + 3) * 4"` to 20. -/
theorem C1_operator_precedence :
    (∀ a b c : Nat,
      parseLine (numStr a ++ " + " ++ numStr b ++ " * " ++ numStr c) =
        .ok (.BinaryOperator (.Numbers a) .PLUS
          (.BinaryOperator (.Numbers b) .MUL (.Numbers c))) ∧
      runLine (numStr a ++ " + " ++ numStr b ++ " * " ++ numStr c) =
        .ok (.vint (a + b * c : Nat))) ∧
    runLine "2 + 3 * 4" = .ok (.vint 14) ∧
    runLine "(2 + 3) * 4" = .ok (.vint 20) :=
  ⟨fun a b c => ⟨parseLine_addmul a b c, runLine_addmul a b c⟩,
    by decide, by decide⟩

/-- C2: for non-negative integers `a`, `b` with `b ≠ 0`, evaluating
`"a / b"` yields `⌊a / b⌋`; the `Div` case of the evaluator is Python's
`//`, floor division (`Int.fdiv`), which is the rational floor for a
positive divisor and rounds toward negative infinity rather than
truncating (witness `-7 // 2 = -4`, not `-3`). -/
theorem C2_floor_division :
    (∀ a b : Nat, b ≠ 0 →
      runLine (numStr a ++ " / " ++ numStr b) = .ok (.vint (a / b : Nat))) ∧
    (∀ x y : Int, y ≠ 0 →
      pyFloordiv (.vint x) (.vint y) = .ok (.vint (Int.fdiv x y))) ∧
    (∀ x y : Int, 0 < y → Int.fdiv x y = ⌊(x : ℚ) / (y : ℚ)⌋) ∧
    visit (.BinaryOperator (.UnaryOperator .MINUS (.Numbers 7)) .DIV (.Numbers 2)) =
      .ok (.vint (-4)) := by
  refine ⟨runLine_div, ?_, fdiv_eq_floor, by decide⟩
  intro x y hy
  simp [pyFloordiv, hy]

/-- C2 witness: `7 / 2` evaluates to 3 and `(-7) // 2` is `-4`. -/
theorem C2_floor_division_witness :
    runLine (numStr 7 ++ " / " ++ numStr 2) = .ok (.vint 3) ∧
    pyFloordiv (.vint (-7)) (.vint 2) = .ok (.vint (-4)) :=
  ⟨(C2_floor_division.1 7 2 (by decide)).trans (by decide),
    (C2_floor_division.2.1 (-7) 2 (by decide)).trans (by decide)⟩

/-- C3: a division whose right operand evaluates to 0 produces no value:
for every literal `a`, `"a / 0"` fails with the division-by-zero outcome,
which prints the fixed message "The denominator should not be zero" and
exits the whole process with status 1; the outcome propagates out of an
enclosing evaluation (here an enclosing `+`) without being caught or
transformed. -/
theorem C3_division_by_zero :
    (∀ a : Nat, runLine (numStr a ++ " / 0") =
      .error (.systemExit "The denominator should not be zero" 1)) ∧
    (∀ l r : AST, ∀ v : PyObj, visit l = .ok v →
      visit r = .error (.systemExit "The denominator should not be zero" 1) →
      visit (.BinaryOperator l .PLUS r) =
        .error (.systemExit "The denominator should not be zero" 1)) ∧
    runLine "1 + 10 / 0 + 3" =
      .error (.systemExit "The denominator should not be zero" 1) := by
  refine ⟨?_, ?_, by decide⟩
  · intro a
    rw [← string_append_div_zero a]
    exact runLine_div_zero a
  · intro l r v hl hr
    simp [visit, Token.type, hl, hr]

/-- C3 witness: `5 / 0` exits with the fixed message and status 1, and the
outcome propagates through an enclosing addition. -/
theorem C3_division_by_zero_witness :
    runLine (numStr 5 ++ " / 0") =
      .error (.systemExit "The denominator should not be zero" 1) ∧
    visit (.BinaryOperator (.Numbers 1) .PLUS
        (.BinaryOperator (.Numbers 10) .DIV (.Numbers 0))) =
      .error (.systemExit "The denominator should not be zero" 1) :=
  ⟨C3_division_by_zero.1 5,
    C3_division_by_zero.2.1 _ _ (.vint 1) (by decide) (by decide)⟩

/-- C4: `+`/`-` chains parse left-associatively: for every literal triple,
`"a - b - c"` parses to a `BinaryOperator` whose left child is the
accumulated `a - b` node, and evaluates accordingly; in particular
`"10 - 3 - 2"` yields 5, not 9. -/
theorem C4_left_associativity :
    (∀ a b c : Nat,
      parseLine (numStr a ++ " - " ++ numStr b ++ " - " ++ numStr c) =
        .ok (.BinaryOperator (.BinaryOperator (.Numbers a) .MINUS (.Numbers b))
          .MINUS (.Numbers c)) ∧
      runLine (numStr a ++ " - " ++ numStr b ++ " - " ++ numStr c) =
        .ok (.vint ((a : Int) - b - c))) ∧
    runLine "10 - 3 - 2" = .ok (.vint 5) :=
  ⟨fun a b c => ⟨parseLine_subsub a b c, runLine_subsub a b c⟩, by decide⟩

/-- C5: unary `+`/`-` chain before a factor, each wrapping one
`UnaryOperator` node; `UnaryOperator PLUS e` evaluates to the value of `e`
and `UnaryOperator MINUS e` to its negation; in particular `"--5"` yields
5, `"+-3"` yields -3 and `"-(2+3)"` yields -5. -/
theorem C5_unary_operators :
    parseLine "--5" = .ok (.UnaryOperator .MINUS (.UnaryOperator .MINUS (.Numbers 5))) ∧
    runLine "--5" = .ok (.vint 5) ∧
    runLine "+-3" = .ok (.vint (-3)) ∧
    runLine "-(2+3)" = .ok (.vint (-5)) ∧
    (∀ (e : AST) (n : Int), visit e = .ok (.vint n) →
      visit (.UnaryOperator .PLUS e) = .ok (.vint n) ∧
      visit (.UnaryOperator .MINUS e) = .ok (.vint (-n))) := by
  refine ⟨by decide, by decide, by decide, by decide, ?_⟩
  intro e n h
  constructor <;> simp [visit, Token.type, h, pyPos, pyNeg]

/-- C5 witness: the unary evaluation rules applied at the literal 5. -/
theorem C5_unary_operators_witness :
    visit (.UnaryOperator .PLUS (.Numbers 5)) = .ok (.vint 5) ∧
    visit (.UnaryOperator .MINUS (.Numbers 5)) = .ok (.vint (-5)) :=
  C5_unary_operators.2.2.2.2 (.Numbers 5) 5 (by decide)

/-- C6 counterexample: on `"3 + "` (a missing factor) parsing does NOT
fail with a SyntaxError — `parse` returns an AST whose right child is
Python `None`, refuting the claim that no AST is returned. -/
theorem C6_counterexample :
    parseLine "3 + " = .ok (.BinaryOperator (.Numbers 3) .PLUS .pyNone) := by
  decide

/-- C6 (amended): when a factor is required and the current token is none
of the three expected shapes, `factor` raises nothing and returns Python
`None` without consuming input; `parse` can then succeed with a `None`
child in the tree (`"3 + "`, stray-`*` input), and the failure only
surfaces during evaluation as the visitor fallback exception
"No such a method called visit_NoneType". -/
theorem C6_factor_returns_none :
    (∀ (f : Nat) (p : Parser),
      (p.curr_token = .MUL ∨ p.curr_token = .DIV ∨ p.curr_token = .R_PAR ∨
        p.curr_token = .END) →
      factor (f + 1) p = .ok (.pyNone, p)) ∧
    parseLine "3 + " = .ok (.BinaryOperator (.Numbers 3) .PLUS .pyNone) ∧
    runLine "3 + " = .error (.exception "No such a method called visit_NoneType") ∧
    parseLine "* 3" = .ok (.BinaryOperator .pyNone .MUL (.Numbers 3)) ∧
    runLine "* 3" = .error (.exception "No such a method called visit_NoneType") := by
  refine ⟨?_, by decide, by decide, by decide, by decide⟩
  intro f p h
  rcases h with h | h | h | h <;> simp only [factor, h]

/-- C6 witness: `factor` on an `END` lookahead returns `None` and the
unchanged parser state. -/
theorem C6_factor_returns_none_witness :
    factor 6 ⟨[], .END⟩ = .ok (.pyNone, ⟨[], .END⟩) :=
  C6_factor_returns_none.1 5 ⟨[], .END⟩ (Or.inr (Or.inr (Or.inr rfl)))

/-- C7: `parse` is all-or-nothing: whenever the top-level `expression`
leaves a lookahead other than `EndOfInput`, `parse` raises the syntax
error; in particular the trailing token in `"3 + 4)"` and the unclosed
parenthesis in `"(3 + 4"` both fail with the SyntaxError exception. -/
theorem C7_parse_requires_end :
    (∀ (f : Nat) (p : Parser) (root : AST) (p' : Parser),
      expression f p = .ok (root, p') → p'.curr_token.type ≠ .END →
      parse f p = .error (.exception "Found a syntax error of input text")) ∧
    parseLine "3 + 4)" = .error (.exception "Found a syntax error of input text") ∧
    parseLine "(3 + 4" = .error (.exception "Found a syntax error of input text") := by
  refine ⟨?_, by decide, by decide⟩
  intro f p root p' he hne
  simp only [parse, he]
  rw [if_neg hne]

/-- C7 witness: the general lookahead condition applied to the concrete
run of `"3 + 4)"`, whose top-level expression stops on the trailing `)`. -/
theorem C7_parse_requires_end_witness :
    parse 8 ⟨(" + 4)").data, .INTEGER 3⟩ =
      .error (.exception "Found a syntax error of input text") :=
  C7_parse_requires_end.1 8 ⟨(" + 4)").data, .INTEGER 3⟩
    (.BinaryOperator (.Numbers 3) .PLUS (.Numbers 4)) ⟨[], .R_PAR⟩
    (by decide) (by decide)

/-- C8 counterexample: the lexer error on an unrecognized character is the
fixed exception "Input character is invalid"; the runs on `"3 $ 4"`
(offending `$` at offset 2) and `"12 % 3"` (offending `%` at offset 3)
produce identical error values, so the error carries neither the offending
character nor its offset. -/
theorem C8_counterexample :
    runLine "3 $ 4" = .error (.exception "Input character is invalid") ∧
    runLine "12 % 3" = .error (.exception "Input character is invalid") ∧
    runLine "3 $ 4" = runLine "12 % 3" :=
  ⟨by decide, by decide, by decide⟩

/-- C8 (amended): on any input character that is not whitespace, a digit,
or one of `+ - * / ( )`, the tokenizer fails with the fixed exception
"Input character is invalid" (carrying no character or offset
information), and this failure is fatal for the current input line. -/
theorem C8_lex_error :
    (∀ (c : Char) (cs : List Char),
      py_isspace c = false → py_isdigit c = false →
      (c == '+') = false → (c == '-') = false → (c == '*') = false →
      (c == '/') = false → (c == '(') = false → (c == ')') = false →
      get_next_token (c :: cs) = .error (.exception "Input character is invalid")) ∧
    runLine "3 $ 4" = .error (.exception "Input character is invalid") := by
  refine ⟨?_, by decide⟩
  intro c cs hsp hd hplus hminus hmul hslash hlp hrp
  rw [get_next_token, skip_whitespace, if_neg (by simp [hsp])]
  simp only [hplus, hminus, hmul, hslash, hd, hlp, hrp, Bool.false_eq_true, if_false]

/-- C8 witness: the general lexer-failure rule applied to `$`. -/
theorem C8_lex_error_witness :
    get_next_token ('$' :: (" 4").data) =
      .error (.exception "Input character is invalid") :=
  C8_lex_error.1 '$' (" 4").data (by decide) (by decide) (by decide) (by decide)
    (by decide) (by decide) (by decide) (by decide)

/-- C9: constructing a `Lexer` on the empty input raises the string-index
error already in the constructor (it reads `text[0]` unconditionally);
on every non-empty string construction succeeds. -/
theorem C9_lexer_constructor_empty :
    lexerInit "" = .error (.exception "string index out of range") ∧
    (∀ s : String, s ≠ "" → lexerInit s = .ok s.data) := by
  refine ⟨by decide, ?_⟩
  intro s h
  rw [lexerInit, if_neg]
  intro hd
  apply h
  cases s
  cases hd
  rfl

/-- C9 witness: the constructor succeeds on the non-empty string "7". -/
theorem C9_lexer_constructor_empty_witness :
    lexerInit "7" = .ok ['7'] :=
  (C9_lexer_constructor_empty.2 "7" (by decide)).trans (by decide)

/-- C10: on every non-empty input consisting only of whitespace, `parse`
returns Python `None` rather than an AST or an error, `interpret` then
returns the empty string `''` instead of an integer, and the driver line
prints `result is: ` with no value after it. -/
theorem C10_whitespace_only_input :
    (∀ s : String, s.data ≠ [] → (∀ c ∈ s.data, py_isspace c = true) →
      parseLine s = .ok .pyNone ∧ runLine s = .ok (.vstr "")) ∧
    formatResult (.vstr "") = "result is: " := by
  refine ⟨?_, by decide⟩
  intro s h1 h2
  exact ⟨parseLine_whitespace s h1 h2, runLine_whitespace s h1 h2⟩

/-- C10 witness: a single-space line parses to `None` and evaluates to the
empty string. -/
theorem C10_whitespace_only_input_witness :
    parseLine " " = .ok .pyNone ∧ runLine " " = .ok (.vstr "") :=
  C10_whitespace_only_input.1 " " (by decide) (by decide)

end ToyCompiler
